import Mathlib

/-! Shallow embedding of the credential-verification and storage-selection core
of the azure-01 dashboard: class UserAuth in core/user_auth.py and class
DatabaseManager in core/db_manager.py. The users table is embedded as a list of
rows, and each SQL statement the Python code sends through
DatabaseManager.execute_query / execute_update is embedded as the state
transformation it performs on that table (execute_update returns True whenever
the statement runs without a driver error, regardless of how many rows
matched; an INSERT that violates the UNIQUE constraint on username raises,
which execute_update catches and converts to False with the table unchanged).
The external key-derivation primitive hashlib.pbkdf2_hmac with digest sha256
and 100000 iterations, hex-encoded, is passed in as an explicit function
parameter H; the output of secrets.token_hex(16) and the value of
CURRENT_TIMESTAMP are explicit arguments gen and now. -/

/-- Permissions and description attached to one role, mirroring one entry of
the UserAuth.ROLES dictionary. -/
structure RoleInfo where
  permissions : List String
  description : String
deriving DecidableEq

/-- UserAuth.ROLES: the static, process-wide role table. -/
def ROLES : List (String × RoleInfo) :=
  [("Admin", ⟨["read", "write", "delete", "admin"],
      "Full system access including user management"⟩),
   ("Engineer", ⟨["read", "write"],
      "Can view and modify resources, manage incidents"⟩),
   ("Viewer", ⟨["read"],
      "Read-only access to all features"⟩)]

/-- Dictionary lookup self.ROLES.get(role): the RoleInfo stored under a role
key, if any. -/
def rolesLookup (role : String) : Option RoleInfo :=
  (ROLES.find? (fun kv => kv.1 == role)).map (fun kv => kv.2)

/-- The membership test `role in self.ROLES` used by create_user and
update_user_role. -/
def validRole (role : String) : Bool :=
  (rolesLookup role).isSome

/-- The expression self.ROLES.get(role, \x7b\x7d).get('permissions', []) used by
authenticate to resolve a permission set, with [] for an unknown role. -/
def rolePermissions (role : String) : List String :=
  ((rolesLookup role).map (fun info => info.permissions)).getD []

/-- One stored row of the users table, with the credential columns added by
UserAuth.ensure_schema. Timestamps are abstract Nat instants; last_login is
NULL (none) until the first successful login. -/
structure UserRow where
  username : String
  password_hash : String
  password_salt : String
  email : String
  role : String
  created_at : Nat
  last_login : Option Nat
deriving DecidableEq

/-- The users table: rows in insertion order. The UNIQUE constraint on
username is enforced by the embedded INSERT. -/
abbrev UsersTable : Type := List UserRow

/-- Errors raised by UserAuth methods: create_user and update_user_role raise
ValueError on a role outside ROLES. -/
inductive AuthError where
  | invalidRole (role : String)
deriving DecidableEq

/-- UserAuth.hash_password. H embeds hashlib.pbkdf2_hmac('sha256', password,
salt, 100000).hex(); gen embeds secrets.token_hex(16), which is consumed only
when the salt argument is falsy (None or the empty string), exactly as the
Python `if not salt` test does. Returns (hex digest, salt actually used). -/
def hash_password (H : String → String → String) (password : String)
    (salt : Option String) (gen : String) : String × String :=
  let s := match salt with
    | none => gen
    | some s0 => if s0 = "" then gen else s0
  (H password s, s)

/-- Row count for a username, embedding SELECT COUNT over
`WHERE username = ?`. -/
def countUser (db : UsersTable) (username : String) : Nat :=
  (List.filter (fun row => row.username == username) db).length

/-- UserAuth.create_user. Raising ValueError on an invalid role is the .error
result and leaves the table untouched; the INSERT is the append, and a UNIQUE
violation on username is execute_update returning false with the table rolled
back (unchanged). -/
def create_user (H : String → String → String) (db : UsersTable) (now : Nat)
    (gen : String) (username password email role : String) :
    Except AuthError Bool × UsersTable :=
  if validRole role = false then (.error (.invalidRole role), db)
  else
    let hs := hash_password H password none gen
    let row : UserRow :=
      { username := username, password_hash := hs.1, password_salt := hs.2,
        email := email, role := role, created_at := now, last_login := none }
    if List.any db (fun r => r.username == username) then (.ok false, db)
    else (.ok true, db ++ [row])

/-- The ephemeral session identity dictionary returned by
UserAuth.authenticate on success. -/
structure SessionIdentity where
  username : String
  email : String
  role : String
  permissions : List String
  last_login : Option Nat
deriving DecidableEq

/-- UserAuth.authenticate. SELECT by username takes the first matching row
(`results[0]`); the hash is recomputed with the stored salt; on a match the
last_login UPDATE hits every row with that username and the identity is built
from the row as read before the update; on a mismatch or a missing row the
result is none and the table is untouched. -/
def authenticate (H : String → String → String) (db : UsersTable) (now : Nat)
    (gen : String) (username password : String) :
    Option SessionIdentity × UsersTable :=
  match List.find? (fun row => row.username == username) db with
  | none => (none, db)
  | some user =>
    let ph := (hash_password H password (some user.password_salt) gen).1
    if ph = user.password_hash then
      let db2 := List.map
        (fun row => if row.username == username
          then { row with last_login := some now } else row) db
      (some { username := user.username, email := user.email, role := user.role,
              permissions := rolePermissions user.role,
              last_login := user.last_login }, db2)
    else (none, db)

/-- UserAuth.has_permission: membership of the permission in the identity's
resolved permission list. -/
def has_permission (user : SessionIdentity) (permission : String) : Bool :=
  List.contains user.permissions permission

/-- UserAuth.update_user_role: ValueError on an invalid role; otherwise the
UPDATE rewrites the role of every row with that username (possibly zero rows)
and execute_update reports true. -/
def update_user_role (db : UsersTable) (username new_role : String) :
    Except AuthError Bool × UsersTable :=
  if validRole new_role = false then (.error (.invalidRole new_role), db)
  else (.ok true, List.map
    (fun row => if row.username == username
      then { row with role := new_role } else row) db)

/-- UserAuth.delete_user: the DELETE removes every row with that username
(possibly zero rows) and execute_update reports true. -/
def delete_user (db : UsersTable) (username : String) : Bool × UsersTable :=
  (true, List.filter (fun row => row.username != username) db)

/-- UserAuth.ensure_demo_user: SELECT for the fixed demo username; when no row
comes back, create_user with the fixed demo credentials and role Admin, any
error swallowed (the resulting table is kept either way). -/
def ensure_demo_user (H : String → String → String) (db : UsersTable)
    (now : Nat) (gen : String) : UsersTable :=
  if List.any db (fun row => row.username == "demo@azure.com") then db
  else (create_user H db now gen "demo@azure.com" "demo123" "demo@azure.com"
    "Admin").2

/-- The database section of the configuration mapping handed to
DatabaseManager; none models an absent key (each .get call supplies the
default the Python code uses). -/
structure DbConfig where
  url : Option String
  host : Option String
  port : Option Nat
  database : Option String
  username : Option String
  password : Option String
deriving DecidableEq

/-- The two shapes of psycopg2.connect call issued by
DatabaseManager._connect_postgresql: the single connection string, or the
host/port/database/user/password components. -/
inductive PgParams where
  | fromUrl (url : String)
  | fromComponents (host : String) (port : Nat) (database : String)
      (user : String) (password : String)
deriving DecidableEq

/-- Parameter selection inside _connect_postgresql: the connection string is
used whenever db_config.get('url') is truthy (present and non-empty),
otherwise the component form with its per-key defaults. -/
def pg_connection_params (cfg : DbConfig) : PgParams :=
  match cfg.url with
  | some u => if u = "" then pgComponents cfg else .fromUrl u
  | none => pgComponents cfg
where
  pgComponents (cfg : DbConfig) : PgParams :=
    .fromComponents (cfg.host.getD "localhost") (cfg.port.getD 5432)
      (cfg.database.getD "azure_support") (cfg.username.getD "postgres")
      (cfg.password.getD "")

/-- Outcomes of the external connection attempts: whether psycopg2.connect
returns a connection for given parameters, whether the follow-up SELECT 1
test succeeds on it, and whether sqlite3.connect on the fallback file
succeeds. -/
structure NetEnv where
  pgConnectOk : PgParams → Bool
  pgTestOk : PgParams → Bool
  sqliteOk : Bool

/-- A live connection value held in self.connection, tagged by engine. -/
inductive ConnHandle where
  | pg (params : PgParams)
  | sqliteConn
deriving DecidableEq

/-- The mutable fields of DatabaseManager touched by backend selection, plus
whether the fallback storage directory exists on disk. -/
structure DbState where
  connection : Option ConnHandle
  db_type : Option String
  dataDirExists : Bool
deriving DecidableEq

/-- DatabaseManager._connect_postgresql: attempt the connection with the
selected parameters, then run the SELECT 1 test; on either failure the except
clause closes whatever connection is held and leaves self.connection = None,
returning False. -/
def connect_postgresql (cfg : DbConfig) (env : NetEnv) (s : DbState) :
    Bool × DbState :=
  let p := pg_connection_params cfg
  if env.pgConnectOk p && env.pgTestOk p then
    (true, { s with connection := some (.pg p) })
  else
    (false, { s with connection := none })

/-- DatabaseManager._connect_sqlite: os.makedirs('data', exist_ok=True)
creates the storage location if absent, then sqlite3.connect plus the
SELECT 1 test; on failure the connection is closed and None. -/
def connect_sqlite (env : NetEnv) (s : DbState) : Bool × DbState :=
  let s1 := { s with dataDirExists := true }
  if env.sqliteOk then (true, { s1 with connection := some .sqliteConn })
  else (false, { s1 with connection := none })

/-- DatabaseManager.initialize, the acquire_backend contract of the spec:
PostgreSQL first, tagging db_type postgresql on success; otherwise SQLite,
tagging db_type sqlite; False only when both fail. Schema creation on the
selected backend is embedded separately by the Schema functions below. -/
def acquire_backend (cfg : DbConfig) (env : NetEnv) (s : DbState) :
    Bool × DbState :=
  let rpg := connect_postgresql cfg env s
  if rpg.1 then (true, { rpg.2 with db_type := some "postgresql" })
  else
    let rsq := connect_sqlite env rpg.2
    if rsq.1 then (true, { rsq.2 with db_type := some "sqlite" })
    else (false, rsq.2)

/-- Success of the whole PostgreSQL attempt (connect plus SELECT 1 test) for
a given configuration. -/
def pg_attempt_ok (cfg : DbConfig) (env : NetEnv) : Bool :=
  env.pgConnectOk (pg_connection_params cfg) &&
    env.pgTestOk (pg_connection_params cfg)

/-- One table of the relational schema: its name, its column names in order,
and its stored rows (a row is an association list column-name/value; a column
absent from a row reads as NULL, which is how ALTER TABLE ADD COLUMN leaves
existing rows). -/
structure Table where
  name : String
  columns : List String
  rows : List (List (String × String))
deriving DecidableEq

/-- The whole relational schema state: tables and named indexes
(index name, table, column). -/
structure Schema where
  tables : List Table
  indexes : List (String × String × String)
deriving DecidableEq

/-- The existence test behind CREATE TABLE IF NOT EXISTS: whether a table of
the given name is present. -/
def hasTable (s : Schema) (name : String) : Bool :=
  List.any s.tables (fun t => t.name == name)

/-- The existence test behind CREATE INDEX IF NOT EXISTS: whether an index of
the given name is present. -/
def hasIndex (s : Schema) (idx : String) : Bool :=
  List.any s.indexes (fun e => e.1 == idx)

/-- CREATE TABLE IF NOT EXISTS: a no-op when a table of that name exists
(its columns and rows untouched), otherwise appends an empty table. -/
def createTableIfNotExists (s : Schema) (name : String) (cols : List String) :
    Schema :=
  if hasTable s name then s
  else { s with tables := s.tables ++ [{ name := name, columns := cols, rows := [] }] }

/-- CREATE INDEX IF NOT EXISTS: a no-op when an index of that name exists,
otherwise appends it. -/
def createIndexIfNotExists (s : Schema) (idx : String × String × String) :
    Schema :=
  if hasIndex s idx.1 then s
  else { s with indexes := s.indexes ++ [idx] }

/-- Per-table effect of ALTER TABLE ADD COLUMN on the named table: appends
the column when the table is the addressed one and lacks it, else leaves the
table alone. Rows are untouched (existing rows read NULL in a new column). -/
def addColFun (tbl col : String) (t : Table) : Table :=
  if t.name == tbl && !(List.contains t.columns col)
  then { t with columns := t.columns ++ [col] } else t

/-- ALTER TABLE ADD COLUMN with already-exists protection: adds the column to
the named table when the table exists and lacks it; when the column is
already there the statement's error is swallowed (PostgreSQL IF NOT EXISTS,
or UserAuth.ensure_schema's try/except around the SQLite ALTER), and a
missing table errors, also swallowed. Rows are untouched either way. -/
def addColumnIfMissing (s : Schema) (tbl col : String) : Schema :=
  { s with tables := List.map (addColFun tbl col) s.tables }

/-- Column names of a named table, [] when the table is absent: the PRAGMA
table_info introspection used by the SQLite branch of
UserAuth.ensure_schema. -/
def tableColumns (s : Schema) (tbl : String) : List String :=
  ((List.find? (fun t => t.name == tbl) s.tables).map
    (fun t => t.columns)).getD []

/-- The five table definitions shared by _create_postgresql_schema and
_create_sqlite_schema (column names and order are identical across the two
engines; only the column types differ, which this model does not track). -/
def schemaTableSpecs : List (String × List String) :=
  [("incidents", ["id", "incident_id", "title", "description", "status",
      "priority", "assignee", "service", "region", "category", "impact",
      "created_at", "updated_at"]),
   ("resources", ["id", "resource_id", "name", "type", "resource_group",
      "subscription_id", "region", "status", "tags", "properties",
      "last_updated"]),
   ("settings", ["id", "key", "value", "description", "updated_at"]),
   ("users", ["id", "username", "email", "role", "preferences",
      "created_at", "last_login"]),
   ("audit_log", ["id", "user_id", "action", "resource_type", "resource_id",
      "details", "timestamp"])]

/-- The five CREATE INDEX IF NOT EXISTS statements shared by both engine
branches. -/
def schemaIndexSpecs : List (String × String × String) :=
  [("idx_incidents_status", "incidents", "status"),
   ("idx_incidents_assignee", "incidents", "assignee"),
   ("idx_resources_type", "resources", "type"),
   ("idx_resources_rg", "resources", "resource_group"),
   ("idx_audit_log_timestamp", "audit_log", "timestamp")]

/-- Folding CREATE TABLE IF NOT EXISTS over a list of table definitions. -/
def createTables (s : Schema) (specs : List (String × List String)) : Schema :=
  List.foldl (fun s2 nc => createTableIfNotExists s2 nc.1 nc.2) s specs

/-- Folding CREATE INDEX IF NOT EXISTS over a list of index definitions. -/
def createIndexes (s : Schema) (specs : List (String × String × String)) :
    Schema :=
  List.foldl (fun s2 idx => createIndexIfNotExists s2 idx) s specs

/-- DatabaseManager._create_postgresql_schema and _create_sqlite_schema: the
five guarded CREATE TABLE statements followed by the five guarded
CREATE INDEX statements. -/
def db_create_schema (s : Schema) : Schema :=
  createIndexes (createTables s schemaTableSpecs) schemaIndexSpecs

/-- UserAuth.ensure_schema, PostgreSQL branch: one ALTER TABLE users with
ADD COLUMN IF NOT EXISTS for password_hash and password_salt, then
CREATE INDEX IF NOT EXISTS idx_users_username. -/
def user_ensure_schema_pg (s : Schema) : Schema :=
  let s1 := addColumnIfMissing s "users" "password_hash"
  let s2 := addColumnIfMissing s1 "users" "password_salt"
  createIndexIfNotExists s2 ("idx_users_username", "users", "username")

/-- UserAuth.ensure_schema, SQLite branch: read the column list once via
PRAGMA table_info(users), then issue a plain ALTER TABLE ADD COLUMN for each
of password_hash and password_salt that the reading lacked (errors
swallowed). -/
def user_ensure_schema_sqlite (s : Schema) : Schema :=
  let colNames := tableColumns s "users"
  let s1 := if List.contains colNames "password_hash" then s
    else addColumnIfMissing s "users" "password_hash"
  if List.contains colNames "password_salt" then s1
  else addColumnIfMissing s1 "users" "password_salt"

/-- The full startup DDL sequence on the PostgreSQL backend:
DatabaseManager schema creation then UserAuth.ensure_schema. -/
def ensure_schema_pg (s : Schema) : Schema :=
  user_ensure_schema_pg (db_create_schema s)

/-- The full startup DDL sequence on the SQLite backend:
DatabaseManager schema creation then UserAuth.ensure_schema. -/
def ensure_schema_sqlite (s : Schema) : Schema :=
  user_ensure_schema_sqlite (db_create_schema s)

/-! Helper lemmas about the embedded users table. -/

theorem list_map_eq_self {α : Type} (f : α → α) (l : List α)
    (h : ∀ x ∈ l, f x = x) : List.map f l = l := by
  induction l with
  | nil => rfl
  | cons a t ih =>
    simp only [List.map_cons]
    rw [h a (List.mem_cons_self a t), ih (fun x hx => h x (List.mem_cons_of_mem a hx))]

theorem mem_false_of_any_false {α : Type} (p : α → Bool) (l : List α)
    (h : List.any l p = false) : ∀ x ∈ l, p x = false := by
  intro x hx
  rcases hb : p x with _ | _
  · rfl
  · exact absurd (List.any_eq_true.mpr ⟨x, hx, hb⟩) (by simp [h])

theorem find?_eq_none_of_any_false {α : Type} (p : α → Bool) (l : List α)
    (h : List.any l p = false) : List.find? p l = none :=
  List.find?_eq_none.mpr (fun x hx => by simp [mem_false_of_any_false p l h x hx])

theorem countUser_eq_zero_iff (db : UsersTable) (u : String) :
    countUser db u = 0 ↔ List.any db (fun row => row.username == u) = false := by
  constructor
  · intro h
    rcases ha : List.any db (fun row => row.username == u) with _ | _
    · rfl
    · rcases List.any_eq_true.mp ha with ⟨row, hrow, hpu⟩
      have : row ∈ List.filter (fun row => row.username == u) db :=
        List.mem_filter.mpr ⟨hrow, hpu⟩
      have hlen : 0 < countUser db u := by
        unfold countUser
        exact List.length_pos.mpr (fun hnil => by rw [hnil] at this; exact absurd this (List.not_mem_nil row))
      omega
  · intro h
    unfold countUser
    have : List.filter (fun row => row.username == u) db = [] := by
      apply List.filter_eq_nil_iff.mpr
      intro row hrow
      simp [mem_false_of_any_false _ db h row hrow]
    rw [this]
    rfl

theorem countUser_pos_of_any (db : UsersTable) (u : String)
    (h : List.any db (fun row => row.username == u) = true) :
    0 < countUser db u := by
  rcases List.any_eq_true.mp h with ⟨row, hrow, hpu⟩
  unfold countUser
  exact List.length_pos.mpr (fun hnil => by
    have : row ∈ List.filter (fun row => row.username == u) db :=
      List.mem_filter.mpr ⟨hrow, hpu⟩
    rw [hnil] at this
    exact absurd this (List.not_mem_nil row))

/-- C1: for every valid input (username, password, email, role) with role in
Admin, Engineer, Viewer, create_user on a table without that username
followed by authenticate with the same password returns a SessionIdentity
whose role equals the stored role and whose permission set equals the static
role-to-permission mapping. gen is the non-empty salt drawn from
secrets.token_hex(16) during creation. -/
theorem C1_create_then_authenticate
    (H : String → String → String) (db : UsersTable) (now now2 : Nat)
    (gen gen2 : String) (u p e r : String)
    (hrole : r ∈ ["Admin", "Engineer", "Viewer"])
    (hgen : gen ≠ "")
    (hfresh : List.any db (fun row => row.username == u) = false) :
    ∃ db2 : UsersTable, ∃ id : SessionIdentity,
      create_user H db now gen u p e r = (.ok true, db2) ∧
      (authenticate H db2 now2 gen2 u p).1 = some id ∧
      id.role = r ∧ id.permissions = rolePermissions r ∧
      (r = "Admin" → id.permissions = ["read", "write", "delete", "admin"]) ∧
      (r = "Engineer" → id.permissions = ["read", "write"]) ∧
      (r = "Viewer" → id.permissions = ["read"]) := by
  have hvr : validRole r = true := by
    simp only [List.mem_cons, List.not_mem_nil, or_false] at hrole
    rcases hrole with rfl | rfl | rfl <;> decide
  refine ⟨db ++ [⟨u, H p gen, gen, e, r, now, none⟩],
    ⟨u, e, r, rolePermissions r, none⟩, ?_, ?_, rfl, rfl, ?_, ?_, ?_⟩
  · simp [create_user, hvr, hfresh, hash_password]
  · have hnone : List.find? (fun x => x.username == u) db = none :=
      find?_eq_none_of_any_false _ db hfresh
    have hfind : List.find? (fun x : UserRow => x.username == u)
        (db ++ [⟨u, H p gen, gen, e, r, now, none⟩]) =
        some ⟨u, H p gen, gen, e, r, now, none⟩ := by
      rw [List.find?_append, hnone]
      simp
    simp [authenticate, hfind, hash_password, hgen]
  · rintro rfl; rfl
  · rintro rfl; rfl
  · rintro rfl; rfl

/-- C2: for a stored account whose recomputed hash does not match (and for an
absent username, where the hypothesis holds vacuously), authenticate returns
None and leaves the table — last_login included — untouched, however many
times the attempt is repeated; the unknown-user and wrong-password outcomes
are the same None value. -/
theorem C2_wrong_password_returns_none
    (H : String → String → String) (db : UsersTable) (now : Nat) (gen : String)
    (u p : String)
    (hmiss : ∀ row : UserRow,
      List.find? (fun x => x.username == u) db = some row →
      (hash_password H p (some row.password_salt) gen).1 ≠ row.password_hash) :
    authenticate H db now gen u p = (none, db) ∧
    ∀ n : Nat, (fun d => (authenticate H d now gen u p).2)^[n] db = db := by
  have h1 : authenticate H db now gen u p = (none, db) := by
    rcases hfind : List.find? (fun x : UserRow => x.username == u) db with _ | user
    · simp [authenticate, hfind]
    · simp [authenticate, hfind, hmiss user hfind]
  exact ⟨h1, fun n => Function.iterate_fixed (by rw [h1]) n⟩

/-- C3: create_user twice with the same username returns true then false (the
duplicate surfaces as boolean false, not a fault), and exactly one row with
that username exists afterwards. -/
theorem C3_duplicate_username_rejected
    (H : String → String → String) (db : UsersTable) (now now2 : Nat)
    (gen gen2 : String) (u p p2 e e2 r r2 : String)
    (h1 : validRole r = true) (h2 : validRole r2 = true)
    (hfresh : List.any db (fun row => row.username == u) = false) :
    ∃ db2 : UsersTable,
      create_user H db now gen u p e r = (.ok true, db2) ∧
      create_user H db2 now2 gen2 u p2 e2 r2 = (.ok false, db2) ∧
      countUser db2 u = 1 := by
  refine ⟨db ++ [⟨u, H p gen, gen, e, r, now, none⟩], ?_, ?_, ?_⟩
  · simp [create_user, h1, hfresh, hash_password]
  · have hany : List.any (db ++ [⟨u, H p gen, gen, e, r, now, none⟩])
        (fun row : UserRow => row.username == u) = true := by
      rw [List.any_append]
      simp
    simp [create_user, h2, hany]
  · have hzero : countUser db u = 0 := (countUser_eq_zero_iff db u).mpr hfresh
    unfold countUser at hzero ⊢
    rw [List.filter_append, List.length_append, hzero]
    simp

/-- C5: create_user with a role outside the fixed enum fails with the
InvalidRole fault (the raised ValueError) before any write: the returned
table is the input table unchanged. -/
theorem C5_invalid_role_rejected_before_write
    (H : String → String → String) (db : UsersTable) (now : Nat) (gen : String)
    (u p e r : String) (h : validRole r = false) :
    create_user H db now gen u p e r = (.error (.invalidRole r), db) := by
  simp [create_user, h]

theorem ensure_demo_user_id_of_any_true (H : String → String → String)
    (db : UsersTable) (now : Nat) (gen : String)
    (h : List.any db (fun row => row.username == "demo@azure.com") = true) :
    ensure_demo_user H db now gen = db := by
  unfold ensure_demo_user
  simp [h]

/-- C9: update_user_role and delete_user on a username with no stored row
still return true, because execute_update reports success for any statement
that runs without a driver error regardless of matched rows; the table is
unchanged, so the no-op is indistinguishable from a real update at the
boolean interface. -/
theorem C9_missing_user_update_delete_return_true
    (db : UsersTable) (u r : String)
    (hrole : validRole r = true)
    (habsent : List.any db (fun row => row.username == u) = false) :
    update_user_role db u r = (.ok true, db) ∧
    delete_user db u = (true, db) := by
  have hall := mem_false_of_any_false (fun row : UserRow => row.username == u) db habsent
  constructor
  · have hmap : List.map
        (fun row : UserRow => if row.username == u
          then { row with role := r } else row) db = db :=
      list_map_eq_self _ db (fun x hx => by simp [hall x hx])
    unfold update_user_role
    rw [if_neg (by simp [hrole]), hmap]
  · have hfil : List.filter (fun row : UserRow => row.username != u) db = db :=
      List.filter_eq_self.mpr (fun x hx => by simp [bne, hall x hx])
    simp [delete_user, hfil]

/-- C10: a stored row whose role is outside the three defined roles still
authenticates with the correct password, but the issued identity's permission
set is the empty default, so has_permission is false for every permission. -/
theorem C10_unknown_role_empty_permissions
    (H : String → String → String) (db : UsersTable) (now : Nat) (gen : String)
    (u p : String) (row : UserRow)
    (hfind : List.find? (fun x => x.username == u) db = some row)
    (hrole : validRole row.role = false)
    (hmatch : (hash_password H p (some row.password_salt) gen).1 = row.password_hash) :
    ∃ id : SessionIdentity, (authenticate H db now gen u p).1 = some id ∧
      id.role = row.role ∧ id.permissions = [] ∧
      ∀ perm : String, has_permission id perm = false := by
  have hperm : rolePermissions row.role = [] := by
    have hnone : rolesLookup row.role = none := by
      unfold validRole at hrole
      exact Option.not_isSome_iff_eq_none.mp (by simp [hrole])
    simp [rolePermissions, hnone]
  refine ⟨⟨row.username, row.email, row.role, rolePermissions row.role,
    row.last_login⟩, ?_, rfl, hperm, ?_⟩
  · simp [authenticate, hfind, hmatch]
  · intro perm
    simp [has_permission, hperm]

/-- C6 counterexample: from a state already holding a demo row with role
Viewer, two calls of ensure_demo_user leave that row untouched, so the demo
account afterwards does not have role Admin (nor the hash of the fixed
password), refuting the from-any-state reading of the claim. -/
def Hc : String → String → String :=
  fun p s => String.append (String.append p ":") s

/-- A pre-existing demo account row with role Viewer and an unrelated
credential pair, as a legacy table state. -/
def demoRowViewer : UserRow :=
  { username := "demo@azure.com", password_hash := "legacyhash",
    password_salt := "legacysalt", email := "demo@azure.com",
    role := "Viewer", created_at := 0, last_login := none }

/-- C6 fails as stated: starting from a table whose demo row has role Viewer,
calling ensure_demo_user twice returns that table unchanged and no demo
account with role Admin exists afterwards. -/
theorem C6_counterexample_preexisting_viewer_demo :
    ensure_demo_user Hc (ensure_demo_user Hc [demoRowViewer] 0 "aa") 1 "bb" =
      [demoRowViewer] ∧
    countUser [demoRowViewer] "demo@azure.com" = 1 ∧
    ¬ ∃ row ∈ ensure_demo_user Hc (ensure_demo_user Hc [demoRowViewer] 0 "aa") 1 "bb",
        row.role = "Admin" := by
  refine ⟨by decide, by decide, ?_⟩
  rintro ⟨row, hmem, hrole⟩
  have : row = demoRowViewer := by
    have h1 : ensure_demo_user Hc (ensure_demo_user Hc [demoRowViewer] 0 "aa") 1 "bb" =
        [demoRowViewer] := by decide
    rw [h1] at hmem
    simpa using hmem
  rw [this] at hrole
  exact absurd hrole (by decide)

/-- C6 amended: on any table state satisfying the username UNIQUE constraint
(at most one demo row), ensure_demo_user never creates a second demo account:
after one call exactly one demo row exists, a second call is the identity,
and when no demo row existed beforehand the created row carries role Admin
and the hash of the fixed password demo123 under the generated salt. -/
theorem C6_demo_bootstrap_idempotent
    (H : String → String → String) (db : UsersTable) (now now2 : Nat)
    (gen gen2 : String)
    (hcount : countUser db "demo@azure.com" ≤ 1) :
    countUser (ensure_demo_user H db now gen) "demo@azure.com" = 1 ∧
    ensure_demo_user H (ensure_demo_user H db now gen) now2 gen2 =
      ensure_demo_user H db now gen ∧
    (countUser db "demo@azure.com" = 0 →
      ∃ row : UserRow, ensure_demo_user H db now gen = db ++ [row] ∧
        row.username = "demo@azure.com" ∧ row.role = "Admin" ∧
        row.password_hash = H "demo123" gen ∧ row.password_salt = gen) := by
  rcases hdemo : List.any db (fun row => row.username == "demo@azure.com") with _ | _
  · have hzero : countUser db "demo@azure.com" = 0 :=
      (countUser_eq_zero_iff db "demo@azure.com").mpr hdemo
    have hone : ensure_demo_user H db now gen =
        db ++ [⟨"demo@azure.com", H "demo123" gen, gen, "demo@azure.com",
          "Admin", now, none⟩] := by
      unfold ensure_demo_user
      rw [if_neg (by simp [hdemo])]
      unfold create_user
      rw [if_neg (by decide)]
      simp only [hash_password]
      rw [if_neg (by simp [hdemo])]
    have hany2 : List.any (ensure_demo_user H db now gen)
        (fun row => row.username == "demo@azure.com") = true := by
      rw [hone, List.any_append]
      simp
    refine ⟨?_, ?_, ?_⟩
    · rw [hone]
      unfold countUser at hzero ⊢
      rw [List.filter_append, List.length_append, hzero]
      simp
    · exact ensure_demo_user_id_of_any_true H _ now2 gen2 hany2
    · intro _
      exact ⟨_, hone, rfl, rfl, rfl, rfl⟩
  · have hid : ensure_demo_user H db now gen = db :=
      ensure_demo_user_id_of_any_true H db now gen hdemo
    have hpos : 0 < countUser db "demo@azure.com" :=
      countUser_pos_of_any db "demo@azure.com" hdemo
    refine ⟨?_, ?_, ?_⟩
    · rw [hid]; omega
    · rw [hid]
      exact ensure_demo_user_id_of_any_true H db now2 gen2 hdemo
    · intro h0; omega

/-- A configuration that carries both the connection-string form and the
host/port/credentials form. -/
def cfgBothForms : DbConfig :=
  { url := some "postgresql://db.example/app", host := some "dbhost",
    port := some 5433, database := some "appdb", username := some "appuser",
    password := some "pw" }

/-- A network in which the component-form PostgreSQL connection would
succeed, the connection-string form is unreachable, and the SQLite fallback
works. -/
def envUrlDown : NetEnv :=
  { pgConnectOk := fun p => match p with
      | .fromUrl _ => false
      | .fromComponents _ _ _ _ _ => true,
    pgTestOk := fun _ => true,
    sqliteOk := true }

/-- The DatabaseManager state at process start. -/
def freshDbState : DbState :=
  { connection := none, db_type := none, dataDirExists := false }

/-- C4 fails as stated: with both parameter forms configured, the code uses
the connection-string form, not the host/port form first; here the host/port
components would have connected but are never attempted, and the manager
falls back to SQLite. -/
theorem C4_counterexample_url_tried_first :
    pg_connection_params cfgBothForms = .fromUrl "postgresql://db.example/app" ∧
    envUrlDown.pgConnectOk
      (.fromComponents "dbhost" 5433 "appdb" "appuser" "pw") = true ∧
    acquire_backend cfgBothForms envUrlDown freshDbState =
      (true, ⟨some .sqliteConn, some "sqlite", true⟩) := by
  refine ⟨rfl, rfl, ?_⟩
  rfl

/-- C4 amended: acquire_backend attempts the primary engine first, using the
connection-string form when configured (non-empty) and the
host/port/credentials form otherwise; when that attempt fails it holds no
partial connection, and it falls back to the embedded engine, creating its
storage location and returning a handle tagged sqlite without raising; it
reports failure only when the fallback is also unreachable. -/
theorem C4_fallback_to_sqlite
    (cfg : DbConfig) (env : NetEnv) (s : DbState)
    (hpg : pg_attempt_ok cfg env = false) :
    (connect_postgresql cfg env s).1 = false ∧
    (connect_postgresql cfg env s).2.connection = none ∧
    (env.sqliteOk = true →
      acquire_backend cfg env s =
        (true, ⟨some .sqliteConn, some "sqlite", true⟩)) ∧
    (env.sqliteOk = false →
      (acquire_backend cfg env s).1 = false ∧
      (acquire_backend cfg env s).2.connection = none) := by
  unfold pg_attempt_ok at hpg
  have hc : connect_postgresql cfg env s =
      (false, { s with connection := none }) := by
    unfold connect_postgresql
    rw [if_neg (by simp [hpg])]
  refine ⟨by rw [hc], by rw [hc], ?_, ?_⟩
  · intro hsq
    unfold acquire_backend
    rw [hc]
    simp [connect_sqlite, hsq]
  · intro hsq
    unfold acquire_backend
    rw [hc]
    simp [connect_sqlite, hsq]

/-! Helper lemmas for the schema DDL operations. -/

theorem contains_true_iff {α : Type} [BEq α] [LawfulBEq α] (l : List α) (a : α) :
    l.contains a = true ↔ a ∈ l := by
  simp

theorem addColFun_name (tbl col : String) (t : Table) :
    (addColFun tbl col t).name = t.name := by
  unfold addColFun
  split <;> rfl

theorem addColFun_rows (tbl col : String) (t : Table) :
    (addColFun tbl col t).rows = t.rows := by
  unfold addColFun
  split <;> rfl

theorem addColFun_contains_self (tbl col : String) (t : Table)
    (h : t.name = tbl) : List.contains (addColFun tbl col t).columns col = true := by
  unfold addColFun
  rcases hc : List.contains t.columns col with _ | _
  · rw [if_pos (by simp [h, hc])]
    simp
  · rw [if_neg (by simp [hc])]
    exact hc

theorem addColFun_contains_mono (tbl col c : String) (t : Table)
    (h : List.contains t.columns c = true) :
    List.contains (addColFun tbl col t).columns c = true := by
  unfold addColFun
  split
  · simp only [contains_true_iff] at h ⊢
    exact List.mem_append_left _ h
  · exact h

theorem addColFun_id_of_contains (tbl col : String) (t : Table)
    (h : List.contains t.columns col = true) : addColFun tbl col t = t := by
  unfold addColFun
  rw [if_neg (by simp [(contains_true_iff t.columns col).mp h])]

theorem addColFun_id_of_name_ne (tbl col : String) (t : Table)
    (h : ¬ t.name = tbl) : addColFun tbl col t = t := by
  unfold addColFun
  rw [if_neg (by simp [h])]

theorem acm_indexes (s : Schema) (tbl col : String) :
    (addColumnIfMissing s tbl col).indexes = s.indexes := rfl

theorem acm_hasTable (s : Schema) (tbl col q : String) :
    hasTable (addColumnIfMissing s tbl col) q = hasTable s q := by
  unfold hasTable addColumnIfMissing
  rw [List.any_map]
  congr 1
  funext t
  simp [Function.comp, addColFun_name]

theorem acm_hasIndex (s : Schema) (tbl col q : String) :
    hasIndex (addColumnIfMissing s tbl col) q = hasIndex s q := rfl

theorem acm_rows_preserved (s : Schema) (tbl col : String) :
    ∀ t ∈ s.tables, ∃ t2 ∈ (addColumnIfMissing s tbl col).tables,
      t2.name = t.name ∧ t2.rows = t.rows := by
  intro t ht
  exact ⟨addColFun tbl col t, List.mem_map_of_mem _ ht,
    addColFun_name tbl col t, addColFun_rows tbl col t⟩

theorem acm_id (s : Schema) (tbl col : String)
    (h : ∀ t ∈ s.tables, t.name = tbl → List.contains t.columns col = true) :
    addColumnIfMissing s tbl col = s := by
  unfold addColumnIfMissing
  obtain ⟨tabs, idxs⟩ := s
  simp only [Schema.mk.injEq, and_true]
  apply list_map_eq_self
  intro t ht
  rcases hn : decide (t.name = tbl) with _ | _
  · exact addColFun_id_of_name_ne tbl col t (of_decide_eq_false hn)
  · exact addColFun_id_of_contains tbl col t (h t ht (of_decide_eq_true hn))

theorem acm_ensures (s : Schema) (tbl col : String) :
    ∀ t2 ∈ (addColumnIfMissing s tbl col).tables, t2.name = tbl →
      List.contains t2.columns col = true := by
  intro t2 ht2 hname
  rcases List.mem_map.mp ht2 with ⟨t, ht, rfl⟩
  exact addColFun_contains_self tbl col t (by rw [← addColFun_name tbl col t]; exact hname)

theorem acm_keeps (s : Schema) (tbl col tbl2 c : String)
    (h : ∀ t ∈ s.tables, t.name = tbl2 → List.contains t.columns c = true) :
    ∀ t2 ∈ (addColumnIfMissing s tbl col).tables, t2.name = tbl2 →
      List.contains t2.columns c = true := by
  intro t2 ht2 hname
  rcases List.mem_map.mp ht2 with ⟨t, ht, rfl⟩
  exact addColFun_contains_mono tbl col c t
    (h t ht (by rw [← addColFun_name tbl col t]; exact hname))

theorem ct_id (s : Schema) (n : String) (c : List String)
    (h : hasTable s n = true) : createTableIfNotExists s n c = s := by
  unfold createTableIfNotExists
  rw [if_pos h]

theorem ct_hasTable_mono (s : Schema) (n : String) (c : List String)
    (q : String) (h : hasTable s q = true) :
    hasTable (createTableIfNotExists s n c) q = true := by
  unfold createTableIfNotExists
  split
  · exact h
  · unfold hasTable at h ⊢
    simp only [List.any_append]
    rw [h]
    rfl

theorem ct_hasTable_self (s : Schema) (n : String) (c : List String) :
    hasTable (createTableIfNotExists s n c) n = true := by
  unfold createTableIfNotExists
  split
  · assumption
  · unfold hasTable
    simp [List.any_append]

theorem ct_indexes (s : Schema) (n : String) (c : List String) :
    (createTableIfNotExists s n c).indexes = s.indexes := by
  unfold createTableIfNotExists
  split <;> rfl

theorem ct_mem (s : Schema) (n : String) (c : List String) :
    ∀ t ∈ s.tables, t ∈ (createTableIfNotExists s n c).tables := by
  intro t ht
  unfold createTableIfNotExists
  split
  · exact ht
  · exact List.mem_append_left _ ht

theorem ci_id (s : Schema) (idx : String × String × String)
    (h : hasIndex s idx.1 = true) : createIndexIfNotExists s idx = s := by
  unfold createIndexIfNotExists
  rw [if_pos h]

theorem ci_hasIndex_mono (s : Schema) (idx : String × String × String)
    (q : String) (h : hasIndex s q = true) :
    hasIndex (createIndexIfNotExists s idx) q = true := by
  unfold createIndexIfNotExists
  split
  · exact h
  · unfold hasIndex at h ⊢
    simp only [List.any_append]
    rw [h]
    rfl

theorem ci_hasIndex_self (s : Schema) (idx : String × String × String) :
    hasIndex (createIndexIfNotExists s idx) idx.1 = true := by
  unfold createIndexIfNotExists
  split
  · assumption
  · unfold hasIndex
    simp [List.any_append]

theorem ci_tables (s : Schema) (idx : String × String × String) :
    (createIndexIfNotExists s idx).tables = s.tables := by
  unfold createIndexIfNotExists
  split <;> rfl

theorem createTables_cons (a : String × List String)
    (rest : List (String × List String)) (s : Schema) :
    createTables s (a :: rest) = createTables (createTableIfNotExists s a.1 a.2) rest := rfl

theorem createIndexes_cons (a : String × String × String)
    (rest : List (String × String × String)) (s : Schema) :
    createIndexes s (a :: rest) = createIndexes (createIndexIfNotExists s a) rest := rfl

theorem createTables_id (specs : List (String × List String)) (s : Schema)
    (h : ∀ nc ∈ specs, hasTable s nc.1 = true) : createTables s specs = s := by
  induction specs generalizing s with
  | nil => rfl
  | cons a rest ih =>
    rw [createTables_cons]
    rw [ct_id s a.1 a.2 (h a (List.mem_cons_self a rest))]
    exact ih s (fun nc hnc => h nc (List.mem_cons_of_mem a hnc))

theorem createTables_hasTable_mono (specs : List (String × List String))
    (s : Schema) (q : String) (h : hasTable s q = true) :
    hasTable (createTables s specs) q = true := by
  induction specs generalizing s with
  | nil => exact h
  | cons a rest ih =>
    rw [createTables_cons]
    exact ih (createTableIfNotExists s a.1 a.2) (ct_hasTable_mono s a.1 a.2 q h)

theorem createTables_hasTable_of_mem (specs : List (String × List String))
    (s : Schema) (nc : String × List String) (h : nc ∈ specs) :
    hasTable (createTables s specs) nc.1 = true := by
  induction specs generalizing s with
  | nil => exact absurd h (List.not_mem_nil nc)
  | cons a rest ih =>
    rw [createTables_cons]
    rcases List.mem_cons.mp h with rfl | hrest
    · exact createTables_hasTable_mono rest _ nc.1 (ct_hasTable_self s nc.1 nc.2)
    · exact ih (createTableIfNotExists s a.1 a.2) hrest

theorem createTables_indexes (specs : List (String × List String)) (s : Schema) :
    (createTables s specs).indexes = s.indexes := by
  induction specs generalizing s with
  | nil => rfl
  | cons a rest ih =>
    rw [createTables_cons]
    rw [ih (createTableIfNotExists s a.1 a.2), ct_indexes]

theorem createTables_mem (specs : List (String × List String)) (s : Schema) :
    ∀ t ∈ s.tables, t ∈ (createTables s specs).tables := by
  induction specs generalizing s with
  | nil => exact fun t ht => ht
  | cons a rest ih =>
    intro t ht
    rw [createTables_cons]
    exact ih (createTableIfNotExists s a.1 a.2) t (ct_mem s a.1 a.2 t ht)

theorem createIndexes_id (specs : List (String × String × String)) (s : Schema)
    (h : ∀ i ∈ specs, hasIndex s i.1 = true) : createIndexes s specs = s := by
  induction specs generalizing s with
  | nil => rfl
  | cons a rest ih =>
    rw [createIndexes_cons]
    rw [ci_id s a (h a (List.mem_cons_self a rest))]
    exact ih s (fun i hi => h i (List.mem_cons_of_mem a hi))

theorem createIndexes_hasIndex_mono (specs : List (String × String × String))
    (s : Schema) (q : String) (h : hasIndex s q = true) :
    hasIndex (createIndexes s specs) q = true := by
  induction specs generalizing s with
  | nil => exact h
  | cons a rest ih =>
    rw [createIndexes_cons]
    exact ih (createIndexIfNotExists s a) (ci_hasIndex_mono s a q h)

theorem createIndexes_hasIndex_of_mem (specs : List (String × String × String))
    (s : Schema) (i : String × String × String) (h : i ∈ specs) :
    hasIndex (createIndexes s specs) i.1 = true := by
  induction specs generalizing s with
  | nil => exact absurd h (List.not_mem_nil i)
  | cons a rest ih =>
    rw [createIndexes_cons]
    rcases List.mem_cons.mp h with rfl | hrest
    · exact createIndexes_hasIndex_mono rest _ i.1 (ci_hasIndex_self s i)
    · exact ih (createIndexIfNotExists s a) hrest

theorem createIndexes_tables (specs : List (String × String × String))
    (s : Schema) : (createIndexes s specs).tables = s.tables := by
  induction specs generalizing s with
  | nil => rfl
  | cons a rest ih =>
    rw [createIndexes_cons]
    rw [ih (createIndexIfNotExists s a), ci_tables]

theorem hasTable_eq_of_tables_eq (s1 s2 : Schema) (h : s1.tables = s2.tables)
    (q : String) : hasTable s1 q = hasTable s2 q := by
  unfold hasTable
  rw [h]

theorem hasIndex_eq_of_indexes_eq (s1 s2 : Schema) (h : s1.indexes = s2.indexes)
    (q : String) : hasIndex s1 q = hasIndex s2 q := by
  unfold hasIndex
  rw [h]

theorem dcs_hasTable (s : Schema) (nc : String × List String)
    (h : nc ∈ schemaTableSpecs) : hasTable (db_create_schema s) nc.1 = true := by
  unfold db_create_schema
  rw [hasTable_eq_of_tables_eq _ _ (createIndexes_tables schemaIndexSpecs _) nc.1]
  exact createTables_hasTable_of_mem schemaTableSpecs s nc h

theorem dcs_hasIndex (s : Schema) (i : String × String × String)
    (h : i ∈ schemaIndexSpecs) : hasIndex (db_create_schema s) i.1 = true :=
  createIndexes_hasIndex_of_mem schemaIndexSpecs _ i h

theorem users_spec_mem : ("users", ["id", "username", "email", "role",
    "preferences", "created_at", "last_login"]) ∈ schemaTableSpecs := by
  unfold schemaTableSpecs
  exact List.mem_cons_of_mem _ (List.mem_cons_of_mem _
    (List.mem_cons_of_mem _ (List.mem_cons_self _ _)))

theorem dcs_users (s : Schema) : hasTable (db_create_schema s) "users" = true :=
  dcs_hasTable s ("users", ["id", "username", "email", "role", "preferences",
    "created_at", "last_login"]) users_spec_mem

theorem dcs_id (s : Schema)
    (h1 : ∀ nc ∈ schemaTableSpecs, hasTable s nc.1 = true)
    (h2 : ∀ i ∈ schemaIndexSpecs, hasIndex s i.1 = true) :
    db_create_schema s = s := by
  unfold db_create_schema
  rw [createTables_id schemaTableSpecs s h1, createIndexes_id schemaIndexSpecs s h2]

theorem dcs_mem (s : Schema) : ∀ t ∈ s.tables, t ∈ (db_create_schema s).tables := by
  intro t ht
  unfold db_create_schema
  rw [createIndexes_tables]
  exact createTables_mem schemaTableSpecs s t ht

theorem upg_hasTable (s : Schema) (q : String) :
    hasTable (user_ensure_schema_pg s) q = hasTable s q := by
  unfold user_ensure_schema_pg
  rw [hasTable_eq_of_tables_eq _ _ (ci_tables _ _) q, acm_hasTable, acm_hasTable]

theorem upg_hasIndex_mono (s : Schema) (q : String) (h : hasIndex s q = true) :
    hasIndex (user_ensure_schema_pg s) q = true := by
  unfold user_ensure_schema_pg
  apply ci_hasIndex_mono
  rw [acm_hasIndex, acm_hasIndex]
  exact h

theorem upg_ready (s : Schema) :
    (∀ t ∈ (user_ensure_schema_pg s).tables, t.name = "users" →
      List.contains t.columns "password_hash" = true ∧
      List.contains t.columns "password_salt" = true) ∧
    hasIndex (user_ensure_schema_pg s) "idx_users_username" = true := by
  constructor
  · intro t ht hname
    unfold user_ensure_schema_pg at ht
    rw [ci_tables] at ht
    constructor
    · exact acm_keeps _ "users" "password_salt" "users" "password_hash"
        (acm_ensures s "users" "password_hash") t ht hname
    · exact acm_ensures _ "users" "password_salt" t ht hname
  · unfold user_ensure_schema_pg
    exact ci_hasIndex_self _ ("idx_users_username", "users", "username")

theorem upg_id (s : Schema)
    (hcred : ∀ t ∈ s.tables, t.name = "users" →
      List.contains t.columns "password_hash" = true ∧
      List.contains t.columns "password_salt" = true)
    (hidx : hasIndex s "idx_users_username" = true) :
    user_ensure_schema_pg s = s := by
  simp only [user_ensure_schema_pg]
  rw [acm_id s _ _ (fun t ht h => (hcred t ht h).1)]
  rw [acm_id s _ _ (fun t ht h => (hcred t ht h).2)]
  exact ci_id s _ hidx

theorem upg_rows (s : Schema) : ∀ t ∈ s.tables,
    ∃ t2 ∈ (user_ensure_schema_pg s).tables, t2.name = t.name ∧ t2.rows = t.rows := by
  intro t ht
  unfold user_ensure_schema_pg
  rw [ci_tables]
  rcases acm_rows_preserved s "users" "password_hash" t ht with ⟨t1, ht1, hn1, hr1⟩
  rcases acm_rows_preserved _ "users" "password_salt" t1 ht1 with ⟨t2, ht2, hn2, hr2⟩
  exact ⟨t2, ht2, by rw [hn2, hn1], by rw [hr2, hr1]⟩

theorem find?_tables_acm (s : Schema) (tbl col q : String) :
    List.find? (fun t => t.name == q) (addColumnIfMissing s tbl col).tables =
    Option.map (addColFun tbl col) (List.find? (fun t => t.name == q) s.tables) := by
  unfold addColumnIfMissing
  rw [List.find?_map]
  have hp : ((fun t : Table => t.name == q) ∘ addColFun tbl col) =
      (fun t : Table => t.name == q) := by
    funext t
    simp [Function.comp, addColFun_name]
  rw [hp]

theorem usq_id_of_ready (s : Schema)
    (h1 : List.contains (tableColumns s "users") "password_hash" = true)
    (h2 : List.contains (tableColumns s "users") "password_salt" = true) :
    user_ensure_schema_sqlite s = s := by
  simp only [user_ensure_schema_sqlite, h1, h2, if_true]

theorem usq_hasTable (s : Schema) (q : String) :
    hasTable (user_ensure_schema_sqlite s) q = hasTable s q := by
  by_cases h1 : "password_hash" ∈ tableColumns s "users" <;>
    by_cases h2 : "password_salt" ∈ tableColumns s "users" <;>
    simp [user_ensure_schema_sqlite, h1, h2, acm_hasTable]

theorem usq_indexes (s : Schema) :
    (user_ensure_schema_sqlite s).indexes = s.indexes := by
  by_cases h1 : "password_hash" ∈ tableColumns s "users" <;>
    by_cases h2 : "password_salt" ∈ tableColumns s "users" <;>
    simp [user_ensure_schema_sqlite, h1, h2, acm_indexes]

theorem usq_eq_hash_missing (s : Schema)
    (hc1 : List.contains (tableColumns s "users") "password_hash" = false)
    (hc2 : List.contains (tableColumns s "users") "password_salt" = true) :
    user_ensure_schema_sqlite s = addColumnIfMissing s "users" "password_hash" := by
  have m1 : ¬ ("password_hash" ∈ tableColumns s "users") :=
    fun hm => absurd ((contains_true_iff _ _).mpr hm) (by rw [hc1]; exact Bool.false_ne_true)
  have m2 : "password_salt" ∈ tableColumns s "users" := (contains_true_iff _ _).mp hc2
  simp [user_ensure_schema_sqlite, m1, m2]

theorem usq_eq_salt_missing (s : Schema)
    (hc1 : List.contains (tableColumns s "users") "password_hash" = true)
    (hc2 : List.contains (tableColumns s "users") "password_salt" = false) :
    user_ensure_schema_sqlite s = addColumnIfMissing s "users" "password_salt" := by
  have m1 : "password_hash" ∈ tableColumns s "users" := (contains_true_iff _ _).mp hc1
  have m2 : ¬ ("password_salt" ∈ tableColumns s "users") :=
    fun hm => absurd ((contains_true_iff _ _).mpr hm) (by rw [hc2]; exact Bool.false_ne_true)
  simp [user_ensure_schema_sqlite, m1, m2]

theorem usq_eq_both_missing (s : Schema)
    (hc1 : List.contains (tableColumns s "users") "password_hash" = false)
    (hc2 : List.contains (tableColumns s "users") "password_salt" = false) :
    user_ensure_schema_sqlite s =
      addColumnIfMissing (addColumnIfMissing s "users" "password_hash")
        "users" "password_salt" := by
  have m1 : ¬ ("password_hash" ∈ tableColumns s "users") :=
    fun hm => absurd ((contains_true_iff _ _).mpr hm) (by rw [hc1]; exact Bool.false_ne_true)
  have m2 : ¬ ("password_salt" ∈ tableColumns s "users") :=
    fun hm => absurd ((contains_true_iff _ _).mpr hm) (by rw [hc2]; exact Bool.false_ne_true)
  simp [user_ensure_schema_sqlite, m1, m2]

theorem usq_rows (s : Schema) : ∀ t ∈ s.tables,
    ∃ t2 ∈ (user_ensure_schema_sqlite s).tables,
      t2.name = t.name ∧ t2.rows = t.rows := by
  intro t ht
  rcases hc1 : List.contains (tableColumns s "users") "password_hash" with _ | _ <;>
    rcases hc2 : List.contains (tableColumns s "users") "password_salt" with _ | _
  · rw [usq_eq_both_missing s hc1 hc2]
    rcases acm_rows_preserved s "users" "password_hash" t ht with ⟨t1, ht1, hn1, hr1⟩
    rcases acm_rows_preserved _ "users" "password_salt" t1 ht1 with ⟨t2, ht2, hn2, hr2⟩
    exact ⟨t2, ht2, by rw [hn2, hn1], by rw [hr2, hr1]⟩
  · rw [usq_eq_hash_missing s hc1 hc2]
    exact acm_rows_preserved s "users" "password_hash" t ht
  · rw [usq_eq_salt_missing s hc1 hc2]
    exact acm_rows_preserved s "users" "password_salt" t ht
  · rw [usq_id_of_ready s hc1 hc2]
    exact ⟨t, ht, rfl, rfl⟩

theorem usq_ready (s : Schema) (hu : hasTable s "users" = true) :
    List.contains (tableColumns (user_ensure_schema_sqlite s) "users")
      "password_hash" = true ∧
    List.contains (tableColumns (user_ensure_schema_sqlite s) "users")
      "password_salt" = true := by
  unfold hasTable at hu
  obtain ⟨t0, hfind⟩ := Option.isSome_iff_exists.mp
    (List.find?_isSome.mpr (List.any_eq_true.mp hu))
  have ht0 : t0.name = "users" := by simpa using List.find?_some hfind
  have htc : tableColumns s "users" = t0.columns := by
    unfold tableColumns
    rw [hfind]
    rfl
  have htc1 : ∀ c : String,
      tableColumns (addColumnIfMissing s "users" c) "users" =
        (addColFun "users" c t0).columns := by
    intro c
    unfold tableColumns
    rw [find?_tables_acm, hfind]
    rfl
  have htc2 : tableColumns (addColumnIfMissing
      (addColumnIfMissing s "users" "password_hash") "users" "password_salt")
      "users" = (addColFun "users" "password_salt"
        (addColFun "users" "password_hash" t0)).columns := by
    unfold tableColumns
    rw [find?_tables_acm, find?_tables_acm, hfind]
    rfl
  rcases hc1 : List.contains (tableColumns s "users") "password_hash" with _ | _ <;>
    rcases hc2 : List.contains (tableColumns s "users") "password_salt" with _ | _
  · rw [usq_eq_both_missing s hc1 hc2, htc2]
    constructor
    · exact addColFun_contains_mono _ _ _ _
        (addColFun_contains_self "users" "password_hash" t0 ht0)
    · exact addColFun_contains_self "users" "password_salt" _
        (by rw [addColFun_name]; exact ht0)
  · rw [usq_eq_hash_missing s hc1 hc2, htc1]
    constructor
    · exact addColFun_contains_self "users" "password_hash" t0 ht0
    · exact addColFun_contains_mono _ _ _ _ (by rw [htc] at hc2; exact hc2)
  · rw [usq_eq_salt_missing s hc1 hc2, htc1]
    constructor
    · exact addColFun_contains_mono _ _ _ _ (by rw [htc] at hc1; exact hc1)
    · exact addColFun_contains_self "users" "password_salt" t0 ht0
  · rw [usq_id_of_ready s hc1 hc2, htc]
    rw [htc] at hc1 hc2
    exact ⟨hc1, hc2⟩

theorem usq_id_no_users (s : Schema) (hu : hasTable s "users" = false) :
    user_ensure_schema_sqlite s = s := by
  unfold hasTable at hu
  have hnames := mem_false_of_any_false _ _ hu
  have hacm : ∀ c : String, addColumnIfMissing s "users" c = s := by
    intro c
    apply acm_id
    intro t ht h
    exact absurd h (by simpa using hnames t ht)
  have hnone : List.find? (fun t : Table => t.name == "users") s.tables = none :=
    find?_eq_none_of_any_false _ _ hu
  have htc : tableColumns s "users" = [] := by
    unfold tableColumns
    rw [hnone]
    rfl
  rcases hc1 : List.contains (tableColumns s "users") "password_hash" with _ | _ <;>
    rcases hc2 : List.contains (tableColumns s "users") "password_salt" with _ | _
  · rw [usq_eq_both_missing s hc1 hc2, hacm, hacm]
  · rw [usq_eq_hash_missing s hc1 hc2, hacm]
  · rw [usq_eq_salt_missing s hc1 hc2, hacm]
  · exact usq_id_of_ready s hc1 hc2

theorem esq_idem (s : Schema) :
    ensure_schema_sqlite (ensure_schema_sqlite s) = ensure_schema_sqlite s := by
  unfold ensure_schema_sqlite
  have hD : db_create_schema (user_ensure_schema_sqlite (db_create_schema s)) =
      user_ensure_schema_sqlite (db_create_schema s) := by
    apply dcs_id
    · intro nc hnc
      rw [usq_hasTable]
      exact dcs_hasTable s nc hnc
    · intro i hi
      rw [hasIndex_eq_of_indexes_eq _ _ (usq_indexes (db_create_schema s)) i.1]
      exact dcs_hasIndex s i hi
  rw [hD]
  obtain ⟨h1, h2⟩ := usq_ready (db_create_schema s) (dcs_users s)
  exact usq_id_of_ready _ h1 h2

theorem epg_idem (s : Schema) :
    ensure_schema_pg (ensure_schema_pg s) = ensure_schema_pg s := by
  unfold ensure_schema_pg
  have hD : db_create_schema (user_ensure_schema_pg (db_create_schema s)) =
      user_ensure_schema_pg (db_create_schema s) := by
    apply dcs_id
    · intro nc hnc
      rw [upg_hasTable]
      exact dcs_hasTable s nc hnc
    · intro i hi
      exact upg_hasIndex_mono _ i.1 (dcs_hasIndex s i hi)
  rw [hD]
  obtain ⟨hcred, hidx⟩ := upg_ready (db_create_schema s)
  exact upg_id _ hcred hidx

theorem esq_rows (s : Schema) : ∀ t ∈ s.tables,
    ∃ t2 ∈ (ensure_schema_sqlite s).tables, t2.name = t.name ∧ t2.rows = t.rows := by
  intro t ht
  unfold ensure_schema_sqlite
  exact usq_rows (db_create_schema s) t (dcs_mem s t ht)

theorem epg_rows (s : Schema) : ∀ t ∈ s.tables,
    ∃ t2 ∈ (ensure_schema_pg s).tables, t2.name = t.name ∧ t2.rows = t.rows := by
  intro t ht
  unfold ensure_schema_pg
  exact upg_rows (db_create_schema s) t (dcs_mem s t ht)

/-- C7: the full startup DDL sequence (five guarded CREATE TABLE statements,
five guarded CREATE INDEX statements, then the credential-column migration of
UserAuth.ensure_schema) is idempotent on both engine branches: a second
application is the identity, N+1 applications equal one, and no application
loses the rows of any existing table. -/
theorem C7_ensure_schema_idempotent (s : Schema) (n : Nat) (t : Table)
    (ht : t ∈ s.tables) :
    ensure_schema_sqlite (ensure_schema_sqlite s) = ensure_schema_sqlite s ∧
    ensure_schema_pg (ensure_schema_pg s) = ensure_schema_pg s ∧
    ensure_schema_sqlite^[n + 1] s = ensure_schema_sqlite s ∧
    ensure_schema_pg^[n + 1] s = ensure_schema_pg s ∧
    (∃ t2 ∈ (ensure_schema_sqlite s).tables, t2.name = t.name ∧ t2.rows = t.rows) ∧
    (∃ t2 ∈ (ensure_schema_pg s).tables, t2.name = t.name ∧ t2.rows = t.rows) := by
  refine ⟨esq_idem s, epg_idem s, ?_, ?_, esq_rows s t ht, epg_rows s t ht⟩
  · rw [Function.iterate_succ_apply]
    exact Function.iterate_fixed (esq_idem s) n
  · rw [Function.iterate_succ_apply]
    exact Function.iterate_fixed (epg_idem s) n

/-- A populated legacy table, used to witness data preservation through the
schema setup. -/
def legacyTable : Table :=
  { name := "legacy", columns := ["id"], rows := [[("id", "1")]] }

/-- A backend state that already holds the populated legacy table. -/
def legacySchema : Schema := { tables := [legacyTable], indexes := [] }

/-- C7 witness: the idempotence and preservation theorem applied to a
concrete populated backend state. -/
theorem C7_ensure_schema_idempotent_witness :
    ensure_schema_sqlite (ensure_schema_sqlite legacySchema) =
      ensure_schema_sqlite legacySchema ∧
    ensure_schema_pg (ensure_schema_pg legacySchema) =
      ensure_schema_pg legacySchema ∧
    ensure_schema_sqlite^[3] legacySchema = ensure_schema_sqlite legacySchema ∧
    ensure_schema_pg^[3] legacySchema = ensure_schema_pg legacySchema ∧
    (∃ t2 ∈ (ensure_schema_sqlite legacySchema).tables,
      t2.name = legacyTable.name ∧ t2.rows = legacyTable.rows) ∧
    (∃ t2 ∈ (ensure_schema_pg legacySchema).tables,
      t2.name = legacyTable.name ∧ t2.rows = legacyTable.rows) :=
  C7_ensure_schema_idempotent legacySchema 2 legacyTable
    (List.mem_cons_self legacyTable [])

/-- A stored row unrelated to the usernames probed in the witnesses. -/
def bobRow : UserRow :=
  { username := "bob", password_hash := "h", password_salt := "s",
    email := "b@x", role := "Viewer", created_at := 0, last_login := none }

/-- A stored row whose role lies outside the three defined roles and whose
hash matches password pw under the embedded hash Hc. -/
def legacyRow : UserRow :=
  { username := "carol", password_hash := Hc "pw" "s1", password_salt := "s1",
    email := "c@x", role := "Operator", created_at := 0, last_login := none }

/-- C1 witness: the round trip at a concrete Engineer registration. -/
theorem C1_create_then_authenticate_witness :
    ("Engineer" ∈ ["Admin", "Engineer", "Viewer"] ∧ ("ab" : String) ≠ "" ∧
      List.any ([] : UsersTable) (fun row => row.username == "alice") = false) ∧
    (∃ db2 : UsersTable, ∃ id : SessionIdentity,
      create_user Hc [] 0 "ab" "alice" "Secret123!" "alice@x.com" "Engineer" =
        (.ok true, db2) ∧
      (authenticate Hc db2 1 "cd" "alice" "Secret123!").1 = some id ∧
      id.role = "Engineer" ∧ id.permissions = rolePermissions "Engineer" ∧
      ("Engineer" = "Admin" → id.permissions = ["read", "write", "delete", "admin"]) ∧
      ("Engineer" = "Engineer" → id.permissions = ["read", "write"]) ∧
      ("Engineer" = "Viewer" → id.permissions = ["read"])) :=
  ⟨⟨by decide, by decide, rfl⟩,
    C1_create_then_authenticate Hc [] 0 1 "ab" "cd" "alice" "Secret123!"
      "alice@x.com" "Engineer" (by decide) (by decide) rfl⟩

/-- C2 witness: authenticating an unknown user at a concrete input. -/
theorem C2_wrong_password_returns_none_witness :
    (∀ row : UserRow,
      List.find? (fun x => x.username == "nobody") ([bobRow] : UsersTable) =
        some row →
      (hash_password Hc "pw" (some row.password_salt) "gg").1 ≠
        row.password_hash) ∧
    (authenticate Hc [bobRow] 5 "gg" "nobody" "pw" = (none, [bobRow]) ∧
      ∀ n : Nat,
        (fun d => (authenticate Hc d 5 "gg" "nobody" "pw").2)^[n] [bobRow] =
          [bobRow]) :=
  ⟨fun row h => by simp [List.find?, bobRow] at h,
    C2_wrong_password_returns_none Hc [bobRow] 5 "gg" "nobody" "pw"
      (fun row h => by simp [List.find?, bobRow] at h)⟩

/-- C3 witness: the duplicate registration at a concrete input. -/
theorem C3_duplicate_username_rejected_witness :
    (validRole "Viewer" = true ∧ validRole "Admin" = true ∧
      List.any ([] : UsersTable) (fun row => row.username == "alice") = false) ∧
    (∃ db2 : UsersTable,
      create_user Hc [] 0 "ab" "alice" "pw1" "a@x" "Viewer" = (.ok true, db2) ∧
      create_user Hc db2 1 "cd" "alice" "pw2" "a2@x" "Admin" = (.ok false, db2) ∧
      countUser db2 "alice" = 1) :=
  ⟨⟨by decide, by decide, rfl⟩,
    C3_duplicate_username_rejected Hc [] 0 1 "ab" "cd" "alice" "pw1" "pw2"
      "a@x" "a2@x" "Viewer" "Admin" (by decide) (by decide) rfl⟩

/-- A network in which every PostgreSQL connection attempt fails and the
SQLite fallback works. -/
def envPgDown : NetEnv :=
  { pgConnectOk := fun _ => false, pgTestOk := fun _ => true, sqliteOk := true }

/-- C4 witness: the fallback theorem at a concrete unreachable primary. -/
theorem C4_fallback_to_sqlite_witness :
    pg_attempt_ok cfgBothForms envPgDown = false ∧
    ((connect_postgresql cfgBothForms envPgDown freshDbState).1 = false ∧
      (connect_postgresql cfgBothForms envPgDown freshDbState).2.connection = none ∧
      (envPgDown.sqliteOk = true →
        acquire_backend cfgBothForms envPgDown freshDbState =
          (true, ⟨some .sqliteConn, some "sqlite", true⟩)) ∧
      (envPgDown.sqliteOk = false →
        (acquire_backend cfgBothForms envPgDown freshDbState).1 = false ∧
        (acquire_backend cfgBothForms envPgDown freshDbState).2.connection = none)) :=
  ⟨rfl, C4_fallback_to_sqlite cfgBothForms envPgDown freshDbState rfl⟩

/-- C5 witness: the rejection of a role outside the enum at a concrete
input. -/
theorem C5_invalid_role_rejected_before_write_witness :
    validRole "SuperUser" = false ∧
    create_user Hc [] 0 "ab" "eve" "pw" "e@x" "SuperUser" =
      (.error (.invalidRole "SuperUser"), []) :=
  ⟨by decide,
    C5_invalid_role_rejected_before_write Hc [] 0 "ab" "eve" "pw" "e@x"
      "SuperUser" (by decide)⟩

/-- C6 witness: the bootstrap theorem starting from the empty table. -/
theorem C6_demo_bootstrap_idempotent_witness :
    countUser ([] : UsersTable) "demo@azure.com" ≤ 1 ∧
    (countUser (ensure_demo_user Hc [] 0 "aa") "demo@azure.com" = 1 ∧
      ensure_demo_user Hc (ensure_demo_user Hc [] 0 "aa") 1 "bb" =
        ensure_demo_user Hc [] 0 "aa" ∧
      (countUser ([] : UsersTable) "demo@azure.com" = 0 →
        ∃ row : UserRow, ensure_demo_user Hc [] 0 "aa" = [] ++ [row] ∧
          row.username = "demo@azure.com" ∧ row.role = "Admin" ∧
          row.password_hash = Hc "demo123" "aa" ∧ row.password_salt = "aa")) :=
  ⟨by decide, C6_demo_bootstrap_idempotent Hc [] 0 1 "aa" "bb" (by decide)⟩

/-- C9 witness: role update and deletion of a username that has no row. -/
theorem C9_missing_user_update_delete_return_true_witness :
    (validRole "Admin" = true ∧
      List.any ([bobRow] : UsersTable) (fun row => row.username == "alice") = false) ∧
    (update_user_role [bobRow] "alice" "Admin" = (.ok true, [bobRow]) ∧
      delete_user [bobRow] "alice" = (true, [bobRow])) :=
  ⟨⟨by decide, by decide⟩,
    C9_missing_user_update_delete_return_true [bobRow] "alice" "Admin"
      (by decide) (by decide)⟩

/-- C10 witness: a row with role Operator authenticates but carries no
permissions. -/
theorem C10_unknown_role_empty_permissions_witness :
    (List.find? (fun x => x.username == "carol") ([legacyRow] : UsersTable) =
      some legacyRow ∧
      validRole legacyRow.role = false ∧
      (hash_password Hc "pw" (some legacyRow.password_salt) "zz").1 =
        legacyRow.password_hash) ∧
    (∃ id : SessionIdentity, (authenticate Hc [legacyRow] 7 "zz" "carol" "pw").1 =
        some id ∧
      id.role = legacyRow.role ∧ id.permissions = [] ∧
      ∀ perm : String, has_permission id perm = false) :=
  ⟨⟨rfl, by decide, rfl⟩,
    C10_unknown_role_empty_permissions Hc [legacyRow] 7 "zz" "carol" "pw"
      legacyRow rfl (by decide) rfl⟩
